import Mathlib

/-!
Shallow embedding of the layout and pagination engine of the repository
(src/src/pdf-renderer.ts), together with proofs that settle the frozen
claims about its specification.

Conventions of the embedding:
* JavaScript numbers are modelled as rationals; `Math.floor` and
  `Math.ceil` become the rational floor and ceiling.
* Strings drawn on the page are modelled as `List Char`; the metrics
  provider `doc.widthOfString` becomes an abstract width function
  (one per font style, since the code switches fonts per token).
* The mutable drawing surface is modelled by an explicit state record
  threaded through the loops; every call to `doc.text` appends a `Draw`
  record to the trace, and every call to `setupPageVisuals` appends the
  footer page number it renders.
-/

namespace Xprinto

/-- Style of a token, from HighlightedToken.fontStyle in src/src/utils/types.ts. -/
inductive FontStyle where
  | normal
  | italic
  | bold
  | boldItalic
deriving DecidableEq, Repr

/-- HighlightedToken from src/src/utils/types.ts: text with optional color and style. -/
structure HighlightedToken where
  text : List Char
  color : Option String := none
  fontStyle : FontStyle := FontStyle.normal
deriving DecidableEq, Repr

/-- HighlightedLine from src/src/utils/types.ts. -/
structure HighlightedLine where
  lineNumber : Nat
  tokens : List HighlightedToken
deriving DecidableEq, Repr

/-- HighlightedFile from src/src/utils/types.ts (fields used by the renderer). -/
structure HighlightedFile where
  relativePath : String
  highlightedLines : List HighlightedLine
deriving DecidableEq, Repr

/-- CODE_BLOCK_PADDING constant of src/src/pdf-renderer.ts. -/
def codeBlockPadding : ℚ := 10

/-- DEFAULT_LINE_HEIGHT_MULTIPLIER constant of src/src/pdf-renderer.ts. -/
def defaultLineHeightMultiplier : ℚ := 7 / 5

/-- The PdfOptions fields consumed by the layout engine (src/src/utils/types.ts). -/
structure PdfOptions where
  pageWidth : ℚ
  pageHeight : ℚ
  marginTop : ℚ
  marginBottom : ℚ
  marginLeft : ℚ
  marginRight : ℚ
  headerHeight : ℚ
  footerHeight : ℚ
  fontSize : ℚ
  showLineNumbers : Bool
deriving DecidableEq, Repr

/-- getContentHeight of src/src/pdf-renderer.ts. -/
def getContentHeight (o : PdfOptions) : ℚ :=
  o.pageHeight - o.marginTop - o.marginBottom - o.headerHeight - o.footerHeight

/-- getContentWidth of src/src/pdf-renderer.ts. -/
def getContentWidth (o : PdfOptions) : ℚ :=
  o.pageWidth - o.marginLeft - o.marginRight

/-- The line height used by renderCodeFile (line 307):
`options.fontSize * DEFAULT_LINE_HEIGHT_MULTIPLIER`. -/
def rendererLineHeight (o : PdfOptions) : ℚ :=
  o.fontSize * defaultLineHeightMultiplier

/-- Abstract metrics provider: width of a string in the code font of a given
style at the configured size, standing for `doc.widthOfString` after
`doc.font(...).fontSize(...)`. -/
abbrev Measure : Type := FontStyle → List Char → ℚ

/-- What kind of text a `doc.text` call in renderCodeFile draws. -/
inductive DrawKind where
  | lineNumber
  | wrapIndicator
  | tokenText
deriving DecidableEq, Repr

/-- One `doc.text` call issued while rendering code: its text, position and
whether the call right-aligns the text inside its box (`align: 'right'`). -/
structure Draw where
  kind : DrawKind
  text : List Char
  x : ℚ
  y : ℚ
  alignRight : Bool
deriving DecidableEq, Repr

/-- Constants renderCodeFile derives once per file (lines 301-318 of
src/src/pdf-renderer.ts). -/
structure RenderCtx where
  lineHeight : ℚ
  startY : ℚ
  endY : ℚ
  startX : ℚ
  codeStartX : ℚ
  codeWidth : ℚ
  wrapIndentWidth : ℚ
  showLineNumbers : Bool
  maxLineNumDigits : Nat
deriving DecidableEq, Repr

/-- maxLineNumDigits of renderCodeFile (line 310):
`String(file.highlightedLines.length).length`. -/
def maxLineNumDigitsOf (file : HighlightedFile) : Nat :=
  (toString file.highlightedLines.length).length

/-- lineNumberWidth of renderCodeFile (line 312). -/
def lineNumberWidthOf (o : PdfOptions) (file : HighlightedFile) : ℚ :=
  if o.showLineNumbers then
    max ((maxLineNumDigitsOf file : ℚ) * o.fontSize * (13 / 20) + codeBlockPadding)
      (35 + codeBlockPadding)
  else 0

/-- Builds the per-file rendering constants of renderCodeFile
(lines 301-318 of src/src/pdf-renderer.ts). -/
def mkRenderCtx (o : PdfOptions) (w : Measure) (file : HighlightedFile) : RenderCtx :=
  let startX := o.marginLeft
  let lineNumberWidth := lineNumberWidthOf o file
  let lineNumberPaddingRight : ℚ := 10
  let codeStartX :=
    startX + (if o.showLineNumbers then lineNumberWidth + lineNumberPaddingRight
              else codeBlockPadding)
  { lineHeight := rendererLineHeight o
    startY := o.marginTop + o.headerHeight
    endY := o.pageHeight - o.marginBottom - o.footerHeight
    startX := startX
    codeStartX := codeStartX
    codeWidth := getContentWidth o - (codeStartX - startX) - codeBlockPadding
    wrapIndentWidth := w FontStyle.normal [' ', ' ']
    showLineNumbers := o.showLineNumbers
    maxLineNumDigits := maxLineNumDigitsOf file }

/-- The page-break boundary renderCodeFile compares against:
`endY - CODE_BLOCK_PADDING` (lines 359 and 393). -/
def RenderCtx.pageBottom (c : RenderCtx) : ℚ := c.endY - codeBlockPadding

/-- The page-break predicate of renderCodeFile:
`doc.y + lineHeight > endY - CODE_BLOCK_PADDING` (lines 359 and 393). -/
def wouldOverflowB (c : RenderCtx) (y : ℚ) : Bool :=
  decide (y + c.lineHeight > c.pageBottom)

/-- Mutable rendering state of renderCodeFile: the vertical cursor `doc.y`,
the horizontal cursor `currentX`, the logical page counter `currentPage`,
the trace of text drawn inside the content area, the footer page numbers
rendered so far, and a count of moveToNextWrapLine calls (one new visual
row per call). -/
structure RState where
  y : ℚ
  x : ℚ
  page : Nat
  draws : List Draw
  footers : List Nat
  wrapMoves : Nat
deriving DecidableEq, Repr

/-- setupPageVisuals of renderCodeFile (lines 322-347): renders the footer
with the current logical page number and resets `doc.y` to the top of the
content area plus half the block padding. -/
def setupPageVisuals (c : RenderCtx) (s : RState) : RState :=
  { s with
    y := c.startY + codeBlockPadding / 2
    footers := s.footers ++ [s.page] }

/-- The page-break action of renderCodeFile (lines 360-362 and 394-396):
`doc.addPage(); currentPage++; setupPageVisuals()`. -/
def breakPage (c : RenderCtx) (s : RState) : RState :=
  setupPageVisuals c { s with page := s.page + 1 }

/-- JavaScript `String.prototype.padStart` with a single-character pad. -/
def jsPadStart (s : List Char) (target : Nat) (pad : Char) : List Char :=
  List.replicate (target - s.length) pad ++ s

/-- The line-number glyph of renderCodeFile (line 374):
`String(line.lineNumber).padStart(maxLineNumDigits, ' ')`. -/
def lineNumberGlyph (lineNumber : Nat) (maxDigits : Nat) : List Char :=
  jsPadStart (toString lineNumber).toList maxDigits ' '

/-- moveToNextWrapLine of renderCodeFile (lines 390-404): advance `doc.y`
by one line height, break the page if the new row would overflow, indent
`currentX`, and draw the wrap indicator in the gutter when line numbers
are shown. -/
def moveToNextWrapLine (c : RenderCtx) (s : RState) : RState :=
  let s1 : RState := { s with y := s.y + c.lineHeight, wrapMoves := s.wrapMoves + 1 }
  let s2 : RState := if wouldOverflowB c s1.y then breakPage c s1 else s1
  let s3 : RState := { s2 with x := c.codeStartX + c.wrapIndentWidth }
  if c.showLineNumbers then
    { s3 with
      draws := s3.draws ++
        [{ kind := DrawKind.wrapIndicator
           text := ['↪']
           x := c.startX + codeBlockPadding / 2
           y := s3.y
           alignRight := true }] }
  else s3

/-- The prefix-measuring loop of renderCodeFile (lines 438-447): scan
segment lengths `i = 1, 2, ...`, remember the last one whose measured
width fits in `avail`, and stop at the first one that exceeds it.
Returns `(fitsChars, currentSegmentWidth)`. -/
def fitScanAux (wf : List Char → ℚ) (avail : ℚ) (cs : List Char) (i : Nat)
    (acc : Nat × ℚ) : Nat × ℚ :=
  if i ≤ cs.length then
    let width := wf (cs.take i)
    if width ≤ avail then fitScanAux wf avail cs (i + 1) (i, width) else acc
  else acc
termination_by cs.length + 1 - i

/-- Entry point of the prefix scan, starting at segment length 1 with
`fitsChars = 0`. -/
def fitScan (wf : List Char → ℚ) (avail : ℚ) (cs : List Char) : Nat × ℚ :=
  fitScanAux wf avail cs 1 (0, 0)

/-- Lines 449-455 of renderCodeFile: when the scan found no fitting
character, force one character onto the row. -/
def forcedFitsChars (scanned : Nat × ℚ) : Nat :=
  if scanned.1 = 0 then 1 else scanned.1

/-- The segment width matching forcedFitsChars: the width of the single
forced character in the forced case, else the scanned width. -/
def forcedSegWidth (wf : List Char → ℚ) (remaining : List Char)
    (scanned : Nat × ℚ) : ℚ :=
  if scanned.1 = 0 then wf (remaining.take 1) else scanned.2

lemma one_le_forcedFitsChars (scanned : Nat × ℚ) : 1 ≤ forcedFitsChars scanned := by
  unfold forcedFitsChars
  split <;> omega

/-- The character-by-character wrapping loop of renderCodeFile
(lines 431-468): while text remains, find how many characters fit in the
space left on the current row, force at least one character when none
fits, draw that segment at `(currentX, doc.y)`, and move to the next wrap
row when text remains. -/
def wrapSegments (c : RenderCtx) (wf : List Char → ℚ) (s : RState)
    (remaining : List Char) : RState :=
  if h : remaining = [] then s
  else
    let scanned := fitScan wf (c.codeStartX + c.codeWidth - s.x) remaining
    let fitsChars := forcedFitsChars scanned
    let s1 : RState :=
      { s with
        draws := s.draws ++
          [{ kind := DrawKind.tokenText, text := remaining.take fitsChars,
             x := s.x, y := s.y, alignRight := false }]
        x := s.x + forcedSegWidth wf remaining scanned }
    let rest := remaining.drop fitsChars
    if rest = [] then s1
    else wrapSegments c wf (moveToNextWrapLine c s1) rest
termination_by remaining.length
decreasing_by
  simp only [List.length_drop]
  have h1 : 0 < remaining.length := List.length_pos.mpr h
  have h2 := one_le_forcedFitsChars
    (fitScan wf (c.codeStartX + c.codeWidth - s.x) remaining)
  omega

/-- The per-token body of the render loop in renderCodeFile
(lines 408-471): a token that fits on the current row is drawn whole;
otherwise the row is finished first (unless this is the first token of
the source line) and the token is split by wrapSegments. -/
def renderToken (c : RenderCtx) (w : Measure) (isFirstTokenOfLine : Bool)
    (s : RState) (token : HighlightedToken) : RState :=
  let wf := w token.fontStyle
  let tokenWidth := wf token.text
  if s.x + tokenWidth ≤ c.codeStartX + c.codeWidth then
    { s with
      draws := s.draws ++
        [{ kind := DrawKind.tokenText, text := token.text, x := s.x, y := s.y,
           alignRight := false }]
      x := s.x + tokenWidth }
  else
    let s1 := if isFirstTokenOfLine then s else moveToNextWrapLine c s
    wrapSegments c wf s1 token.text

/-- The token loop of renderCodeFile (line 408): `isFirstTokenOfLine`
becomes false after the first token is processed (line 470). -/
def renderTokens (c : RenderCtx) (w : Measure) (isFirstTokenOfLine : Bool)
    (s : RState) : List HighlightedToken → RState
  | [] => s
  | token :: rest =>
      renderTokens c w false (renderToken c w isFirstTokenOfLine s token) rest

/-- One iteration of the source-line loop of renderCodeFile
(lines 355-475): break the page if the line would overflow, draw the line
number, render the tokens with wrapping, then set
`doc.y = currentLineY + lineHeight` (line 474). -/
def renderLine (c : RenderCtx) (w : Measure) (s : RState)
    (line : HighlightedLine) : RState :=
  let s0 := if wouldOverflowB c s.y then breakPage c s else s
  let currentLineY := s0.y
  let s1 : RState :=
    if c.showLineNumbers then
      { s0 with
        draws := s0.draws ++
          [{ kind := DrawKind.lineNumber
             text := lineNumberGlyph line.lineNumber c.maxLineNumDigits
             x := c.startX + codeBlockPadding / 2
             y := currentLineY
             alignRight := true }] }
    else s0
  let s2 : RState := { s1 with x := c.codeStartX }
  let s3 := renderTokens c w true s2 line.tokens
  { s3 with y := currentLineY + c.lineHeight }

/-- renderCodeFile of src/src/pdf-renderer.ts (lines 293-486): add the
first page for the file, set up its visuals (footer shows the initial
logical page number), render every source line, and return the final
state (whose `page` field is the returned last logical page number). -/
def renderCodeFile (c : RenderCtx) (w : Measure) (file : HighlightedFile)
    (initialPageNumber : Nat) : RState :=
  let s0 := setupPageVisuals c
    { y := 0, x := 0, page := initialPageNumber, draws := [], footers := [],
      wrapMoves := 0 }
  file.highlightedLines.foldl (renderLine c w) s0

/-- Node `path.dirname` for the POSIX relative paths the engine handles:
skip trailing slashes, drop the last component, return "." when no
directory separator remains (and "/" for rooted paths). -/
def jsDirname (s : String) : String :=
  match s.toList with
  | [] => "."
  | c0 :: tail =>
      let hasRoot := c0 = '/'
      let revTail := tail.reverse
      let afterTrailing := revTail.dropWhile (fun c => c = '/')
      let afterComponent := afterTrailing.dropWhile (fun c => c ≠ '/')
      match afterComponent with
      | [] => if hasRoot then "/" else "."
      | _ :: restRev =>
          let keep := 1 + restRev.length
          if hasRoot ∧ keep = 1 then "//"
          else String.mk ((c0 :: tail).take keep)

/-- The directory key addTableOfContents groups a file under
(lines 112-113 of src/src/pdf-renderer.ts): "/" for the root, otherwise
"/" prepended to the dirname with backslashes replaced by slashes. -/
def dirKey (relativePath : String) : String :=
  let dir := jsDirname relativePath
  if dir = "." ∨ dir = "/" then "/"
  else "/" ++ String.mk (dir.toList.map (fun c => if c = '\\' then '/' else c))

/-- Insertion step of the stable comparator sort modelling
`Array.prototype.sort`: the new element goes before the first element it
compares at-or-below. -/
def jsOrderedInsert (le : α → α → Bool) (a : α) : List α → List α
  | [] => [a]
  | b :: l => if le a b then a :: b :: l else b :: jsOrderedInsert le a l

/-- Stable insertion sort modelling `Array.prototype.sort` with a
comparator: ECMAScript requires a stable sort consistent with the
comparator, and any stable sort of a total preorder yields this result. -/
def jsSort (le : α → α → Bool) : List α → List α
  | [] => []
  | a :: l => jsOrderedInsert le a (jsSort le l)

/-- Code-point lexicographic strict order on character lists, the order
underlying both string comparisons the source performs. -/
def charListLt : List Char → List Char → Bool
  | _, [] => false
  | [], _ :: _ => true
  | a :: as, b :: bs =>
      if a.toNat < b.toNat then true
      else if b.toNat < a.toNat then false
      else charListLt as bs

/-- String comparison standing for `a.localeCompare(b) <= 0`, modelled as
code-point lexicographic order (the ICU collation is locale dependent;
the ordering facts proved here need only a fixed total order). -/
def localeLe (a b : String) : Bool := ! charListLt b.toList a.toList

/-- Comparator of the sort at line 550 of src/src/pdf-renderer.ts:
`(a, b) => a.relativePath.localeCompare(b.relativePath)`. -/
def relPathLe (a b : HighlightedFile) : Bool := localeLe a.relativePath b.relativePath

/-- The order in which generatePdf renders files (line 550):
`files.sort((a, b) => a.relativePath.localeCompare(b.relativePath))`. -/
def rendererFileOrder (files : List HighlightedFile) : List HighlightedFile :=
  jsSort relPathLe files

/-- The group addTableOfContents builds for one directory key
(lines 110-116): files are pushed in input order. -/
def filesForDir (files : List HighlightedFile) (d : String) : List HighlightedFile :=
  files.filter (fun f => dirKey f.relativePath == d)

/-- `Object.keys(filesByDir).sort()` of addTableOfContents (line 128):
the distinct directory keys in default (code-unit lexicographic) order.
Mathlib dedup keeps a different duplicate than JS insertion order does,
but the subsequent sort of the distinct keys makes the orders agree. -/
def sortedDirKeys (files : List HighlightedFile) : List String :=
  jsSort localeLe ((files.map (fun f => dirKey f.relativePath)).dedup)

/-- The order in which addTableOfContents walks (and draws) file entries
(lines 128-137 and 146-165): sorted directory keys, and inside each
directory the files sorted by relativePath. -/
def tocFileOrder (files : List HighlightedFile) : List HighlightedFile :=
  (sortedDirKeys files).flatMap (fun d => jsSort relPathLe (filesForDir files d))

/-- codeLinesPerPage of addTableOfContents (line 125):
`Math.floor(contentHeight / (fontSize * DEFAULT_LINE_HEIGHT_MULTIPLIER))`. -/
def codeLinesPerPage (o : PdfOptions) : ℤ :=
  ⌊getContentHeight o / (o.fontSize * defaultLineHeightMultiplier)⌋

/-- estimatedPagesForFile of addTableOfContents (line 134):
`Math.max(1, Math.ceil(lineCount / codeLinesPerPage))` (faithful to the
JavaScript for a positive codeLinesPerPage). -/
def estimatedPagesForFile (lpp : ℤ) (lineCount : Nat) : ℤ :=
  max 1 ⌈(lineCount : ℚ) / (lpp : ℚ)⌉

/-- The page-estimation loop of addTableOfContents (lines 119-137): each
file in walk order is assigned the running counter as its start page and
the counter advances by the estimated page count of that file. -/
def tocPageEstimates (lpp : ℤ) (startPage : ℤ) :
    List HighlightedFile → List (String × ℤ)
  | [] => []
  | f :: fs =>
      (f.relativePath, startPage) ::
        tocPageEstimates lpp (startPage + estimatedPagesForFile lpp f.highlightedLines.length) fs

/-- The estimate map addTableOfContents returns, fed with the
pageNumberOffset generatePdf passes in (line 535). -/
def addTableOfContentsEstimates (o : PdfOptions) (files : List HighlightedFile)
    (pageNumberOffset : ℤ) : List (String × ℤ) :=
  tocPageEstimates (codeLinesPerPage o) pageNumberOffset (tocFileOrder files)

/-- Per-file step of the render loop of generatePdf (lines 552-558): the
next file starts on the logical page after the last one used, and the
loop keeps, besides the returned page, the footer trace of each file. -/
def generatePdfFileStep (o : PdfOptions) (w : Measure)
    (acc : Nat × List (String × List Nat)) (file : HighlightedFile) :
    Nat × List (String × List Nat) :=
  let currentFileStartLogicalPage := acc.1 + 1
  let st := renderCodeFile (mkRenderCtx o w file) w file currentFileStartLogicalPage
  (st.page, acc.2 ++ [(file.relativePath, st.footers)])

/-- Document assembly of generatePdf (lines 521-558): the cover page is
one physical page; with more than one file the TOC estimator runs with
offset `physicalPageCount + 1` computed before the TOC pages are added;
`tocPhysicalPages` is the number of physical pages the TOC layout
produces (at least one, since addTableOfContents always adds a page);
the file loop then starts from the physical page count after the TOC.
Returns ((last logical page, per-file footer traces), TOC estimates). -/
def generatePdfModel (o : PdfOptions) (w : Measure) (files : List HighlightedFile)
    (tocPhysicalPages : Nat) :
    (Nat × List (String × List Nat)) × List (String × ℤ) :=
  let physicalAfterCover : Nat := 1
  let fileStartLogicalPageNumber := physicalAfterCover + 1
  let estimates :=
    if 1 < files.length then
      addTableOfContentsEstimates o files (fileStartLogicalPageNumber : ℤ)
    else []
  let physicalPageCount :=
    if 1 < files.length then physicalAfterCover + tocPhysicalPages
    else physicalAfterCover
  ((rendererFileOrder files).foldl (generatePdfFileStep o w) (physicalPageCount, []),
   estimates)

/-- The per-file loop of generatePdf viewed with a fallible renderer
(lines 552-558 of src/src/pdf-renderer.ts; lines 725-730 of the sibling
implementation): there is no per-file catch, so an exception thrown while
rendering one file propagates out of the loop (rejecting the generatePdf
promise) instead of being replaced by a placeholder page. -/
def renderFilesLoop (render : HighlightedFile → ℤ → Except String ℤ)
    (lastLogicalPageNumber : ℤ) : List HighlightedFile → Except String ℤ
  | [] => Except.ok lastLogicalPageNumber
  | file :: rest =>
      match render file (lastLogicalPageNumber + 1) with
      | Except.error e => Except.error e
      | Except.ok last => renderFilesLoop render last rest

/-- The effect of line 550, `files.sort(...)`, on the caller: per
ECMAScript, `Array.prototype.sort` reorders the receiver in place and
returns it, so after generatePdf returns the caller's array holds the
sorted order. Result: (caller's array after the call, list the renderer
iterates over). -/
def generatePdfFilesEffect (files : List HighlightedFile) :
    List HighlightedFile × List HighlightedFile :=
  let sortedFiles := rendererFileOrder files
  (sortedFiles, sortedFiles)

/-- The token text a single draw contributes: its text for a tokenText
draw, nothing for gutter drawings (line numbers, wrap indicators). -/
def segText (d : Draw) : List Char :=
  if d.kind = DrawKind.tokenText then d.text else []

/-- Concatenation, in drawing order, of all token text drawn in a trace. -/
def tokenTextConcat (l : List Draw) : List Char := l.flatMap segText

/-- Number of tokenText draws in a trace: one per iteration of the
character-wrapping loop, used to bound its iteration count. -/
def tokenDrawCount (l : List Draw) : Nat :=
  l.countP (fun d => d.kind == DrawKind.tokenText)

/-- A rendering context with line numbers disabled, used to exercise the
wrapping loop on concrete inputs. -/
def wrapDemoCtx : RenderCtx :=
  { lineHeight := 14, startY := 50, endY := 750, startX := 50, codeStartX := 60,
    codeWidth := 480, wrapIndentWidth := 0, showLineNumbers := false,
    maxLineNumDigits := 1 }

/-- A state at the top of a fresh content page with an empty trace. -/
def wrapDemoState : RState :=
  { y := 55, x := 60, page := 3, draws := [], footers := [3], wrapMoves := 0 }

/-- A rendering context with line numbers enabled (digit width 3). -/
def gutterDemoCtx : RenderCtx :=
  { lineHeight := 14, startY := 50, endY := 750, startX := 50, codeStartX := 105,
    codeWidth := 435, wrapIndentWidth := 12, showLineNumbers := true,
    maxLineNumDigits := 3 }

/-- Source line number 7 with a single one-character token. -/
def gutterDemoLine : HighlightedLine :=
  { lineNumber := 7, tokens := [{ text := ['x'] }] }

/-- The narrow context of the C2 check: 10 points of code width so the
two-character token must wrap onto a second visual row. -/
def narrowCtx : RenderCtx :=
  { lineHeight := 14, startY := 50, endY := 750, startX := 50, codeStartX := 100,
    codeWidth := 10, wrapIndentWidth := 0, showLineNumbers := false,
    maxLineNumDigits := 1 }

/-- A metrics provider giving every character width 6. -/
def sixPerChar : Measure := fun _ cs => 6 * cs.length

/-- A metrics provider giving every string width 0 (nothing ever wraps). -/
def zeroMeasure : Measure := fun _ _ => 0

/-- The source line of the C2 check: one token of two characters. -/
def abLine : HighlightedLine :=
  { lineNumber := 1, tokens := [{ text := ['a', 'b'] }] }

/-- The options of the scenario of claim C1: content height 700, font
size 10, hence line height 14 and an estimator page capacity of
floor(700 / 14) = 50 lines. -/
def scenarioOptions : PdfOptions :=
  { pageWidth := 600, pageHeight := 800, marginTop := 20, marginBottom := 20,
    marginLeft := 50, marginRight := 50, headerHeight := 30, footerHeight := 30,
    fontSize := 10, showLineNumbers := false }

/-- Source line `i + 1` holding one one-character token. -/
def plainLine (i : Nat) : HighlightedLine :=
  { lineNumber := i + 1, tokens := [{ text := ['x'] }] }

/-- A file body of n short lines, none of which wraps. -/
def plainLines (n : Nat) : List HighlightedLine :=
  (List.range n).map plainLine

/-- File A of the C1 scenario: 200 lines. -/
def fileA : HighlightedFile := { relativePath := "a.txt", highlightedLines := plainLines 200 }

/-- File B of the C1 scenario: 200 lines. -/
def fileB : HighlightedFile := { relativePath := "b.txt", highlightedLines := plainLines 200 }

/-- The render context mkRenderCtx derives for the scenario files. -/
def scenarioCtx : RenderCtx :=
  { lineHeight := 14, startY := 50, endY := 750, startX := 50, codeStartX := 60,
    codeWidth := 480, wrapIndentWidth := 0, showLineNumbers := false,
    maxLineNumDigits := 3 }

/-- One line of the scenario pagination, on the counter view
(rows already used on the current page, current logical page, footer
numbers rendered): a 49th row on a page breaks to a fresh page first. -/
def pagStep (st : Nat × Nat × List Nat) : Nat × Nat × List Nat :=
  if 48 ≤ st.1 then (1, st.2.1 + 1, st.2.2 ++ [st.2.1 + 1])
  else (st.1 + 1, st.2.1, st.2.2)

/-- pagStep iterated once per source line. -/
def pagIter : Nat → Nat × Nat × List Nat → Nat × Nat × List Nat
  | 0, st => st
  | n + 1, st => pagIter n (pagStep st)

/-- Safety predicate of claim C6: every piece of content in the trace is
drawn at a vertical position whose row of height lineHeight stays at or
above the page-break boundary `endY - CODE_BLOCK_PADDING`. -/
def contentSafe (c : RenderCtx) (l : List Draw) : Prop :=
  ∀ d ∈ l, d.y + c.lineHeight ≤ c.pageBottom

/-! Helper lemmas about the stable comparator sort. -/

lemma jsOrderedInsert_perm (le : α → α → Bool) (a : α) (l : List α) :
    (jsOrderedInsert le a l).Perm (a :: l) := by
  induction l with
  | nil => simp [jsOrderedInsert]
  | cons b l ih =>
      by_cases h : le a b
      · simp [jsOrderedInsert, h]
      · simp only [jsOrderedInsert, h, if_false]
        exact (ih.cons b).trans (List.Perm.swap a b l)

lemma jsSort_perm (le : α → α → Bool) (l : List α) : (jsSort le l).Perm l := by
  induction l with
  | nil => simp [jsSort]
  | cons a l ih =>
      exact (jsOrderedInsert_perm le a (jsSort le l)).trans (ih.cons a)

/-- C10: generatePdf sorts the caller-supplied files array in place at line
550 (Array.prototype.sort mutates its receiver), so after generatePdf
returns the caller's array holds the lexicographic order by relativePath,
not the original order; the renderer iterates that same array, and the
elements themselves are preserved (a permutation). The last conjunct shows
a concrete caller array that generatePdf leaves reordered. -/
theorem C10_sort_mutates_input (files : List HighlightedFile) :
    (generatePdfFilesEffect files).1 = rendererFileOrder files ∧
    (generatePdfFilesEffect files).2 = (generatePdfFilesEffect files).1 ∧
    ((generatePdfFilesEffect files).1).Perm files ∧
    (generatePdfFilesEffect [⟨"b.ts", []⟩, ⟨"a.ts", []⟩]).1 ≠
      [⟨"b.ts", []⟩, ⟨"a.ts", []⟩] :=
  ⟨rfl, rfl, jsSort_perm relPathLe files, by decide⟩

/-- C5 counterexample: a renderer that throws on file "a.txt" makes the
per-file loop of generatePdf (lines 552-558, which has no try/catch)
return that very error: no placeholder page is emitted, file "b.txt" is
never rendered, and the document is not completed. -/
theorem C5_counterexample :
    renderFilesLoop
        (fun file lastPage =>
          if file.relativePath = "a.txt" then Except.error "renderCodeFile threw"
          else Except.ok lastPage)
        2 [⟨"a.txt", []⟩, ⟨"b.txt", []⟩] = Except.error "renderCodeFile threw" ∧
    ∀ z : ℤ, renderFilesLoop
        (fun file lastPage =>
          if file.relativePath = "a.txt" then Except.error "renderCodeFile threw"
          else Except.ok lastPage)
        2 [⟨"a.txt", []⟩, ⟨"b.txt", []⟩] ≠ Except.ok z := by
  constructor
  · rfl
  · intro z h
    have h1 : renderFilesLoop
        (fun (file : HighlightedFile) (lastPage : ℤ) =>
          if file.relativePath = "a.txt" then Except.error "renderCodeFile threw"
          else Except.ok lastPage)
        2 [⟨"a.txt", []⟩, ⟨"b.txt", []⟩] = Except.error "renderCodeFile threw" := by rfl
    rw [h1] at h
    exact Except.noConfusion h

/-- C5 amended: an unexpected exception while rendering one file is not
caught at the per-file level: generatePdf propagates it immediately (the
loop aborts with that error), the remaining files are not rendered, and
no error placeholder page exists. -/
theorem C5_amended_propagates (render : HighlightedFile → ℤ → Except String ℤ)
    (last : ℤ) (file : HighlightedFile) (rest : List HighlightedFile) (e : String)
    (h : render file (last + 1) = Except.error e) :
    renderFilesLoop render last (file :: rest) = Except.error e := by
  simp [renderFilesLoop, h]

/-- Witness for C5 amended: the concrete failing renderer of the
counterexample discharges the hypothesis at file "a.txt". -/
theorem C5_amended_propagates_witness :
    (fun (file : HighlightedFile) (lastPage : ℤ) =>
        if file.relativePath = "a.txt" then Except.error "renderCodeFile threw"
        else Except.ok lastPage) ⟨"a.txt", []⟩ ((2 : ℤ) + 1) =
      Except.error "renderCodeFile threw" ∧
    renderFilesLoop
        (fun (file : HighlightedFile) (lastPage : ℤ) =>
          if file.relativePath = "a.txt" then Except.error "renderCodeFile threw"
          else Except.ok lastPage)
        2 ((⟨"a.txt", []⟩ : HighlightedFile) :: [⟨"b.txt", []⟩]) =
      Except.error "renderCodeFile threw" :=
  ⟨by rfl, C5_amended_propagates _ 2 _ _ _ (by rfl)⟩

/-- C4 counterexample: for the input set { "a/x", "ab" } the TOC walk
(directory keys sorted first: "/" before "/a") lists "ab" before "a/x",
while the renderer's flat lexicographic sort draws "a/x" before "ab", so
the two orders are not the same. -/
theorem C4_counterexample :
    (tocFileOrder [⟨"a/x", []⟩, ⟨"ab", []⟩]).map (fun f => f.relativePath) =
      ["ab", "a/x"] ∧
    (rendererFileOrder [⟨"a/x", []⟩, ⟨"ab", []⟩]).map (fun f => f.relativePath) =
      ["a/x", "ab"] ∧
    tocFileOrder [⟨"a/x", []⟩, ⟨"ab", []⟩] ≠
      rendererFileOrder [⟨"a/x", []⟩, ⟨"ab", []⟩] :=
  ⟨by decide, by decide, by decide⟩

/-- C4 amended: the TOC walks files grouped by directory key (directory
keys sorted first, then relativePath inside a directory), which matches
the renderer's flat lexicographic order exactly when all files share one
directory key; with files in several directories the two orders can
differ (see the counterexample). -/
theorem C4_single_dir_orders_agree (files : List HighlightedFile) (d : String)
    (hd : ∀ f ∈ files, dirKey f.relativePath = d) :
    tocFileOrder files = rendererFileOrder files := by
  cases files with
  | nil => rfl
  | cons f fs =>
      have hmap : ((f :: fs).map (fun g => dirKey g.relativePath)) =
          List.replicate (f :: fs).length d := by
        have : ∀ b ∈ (f :: fs).map (fun g => dirKey g.relativePath), b = d := by
          intro b hb
          obtain ⟨g, hg, rfl⟩ := List.mem_map.mp hb
          exact hd g hg
        simpa using List.eq_replicate_of_mem this
      have hkeys : sortedDirKeys (f :: fs) = [d] := by
        unfold sortedDirKeys
        rw [hmap, List.replicate_dedup (by simp)]
        rfl
      have hfilter : filesForDir (f :: fs) d = f :: fs := by
        unfold filesForDir
        apply List.filter_eq_self.mpr
        intro g hg
        simpa using hd g hg
      unfold tocFileOrder
      rw [hkeys]
      simp only [List.flatMap_cons, List.flatMap_nil, List.append_nil]
      rw [hfilter]
      rfl

/-- Witness for C4 amended: two files at the repository root share the
directory key "/" and the two orders agree. -/
theorem C4_single_dir_orders_agree_witness :
    (∀ f ∈ [(⟨"x.ts", []⟩ : HighlightedFile), ⟨"y.ts", []⟩],
        dirKey f.relativePath = "/") ∧
    tocFileOrder [(⟨"x.ts", []⟩ : HighlightedFile), ⟨"y.ts", []⟩] =
      rendererFileOrder [(⟨"x.ts", []⟩ : HighlightedFile), ⟨"y.ts", []⟩] :=
  ⟨by decide, C4_single_dir_orders_agree _ "/" (by decide)⟩

/-- C9 counterexample: for a 120-line file the digit width is 3, and line
7 is drawn as the space-padded "  7" (String.padStart with a space pad),
not as the zero-padded "007" the claim states. -/
theorem C9_counterexample :
    maxLineNumDigitsOf ⟨"long.ts", (List.range 120).map (fun i => ⟨i + 1, []⟩)⟩ = 3 ∧
    lineNumberGlyph 7 3 = [' ', ' ', '7'] ∧
    lineNumberGlyph 7 3 ≠ ['0', '0', '7'] :=
  ⟨by decide, by decide, by decide⟩

/-! Trace-extension lemmas: each stage of the render loop only appends to
the drawing trace, and what it appends is characterized below. -/

lemma breakPage_draws (c : RenderCtx) (s : RState) :
    (breakPage c s).draws = s.draws := rfl

lemma moveToNextWrapLine_spec (c : RenderCtx) (s : RState) :
    ∃ t, (moveToNextWrapLine c s).draws = s.draws ++ t ∧
      ∀ d ∈ t, d.kind = DrawKind.wrapIndicator := by
  unfold moveToNextWrapLine
  by_cases hn : c.showLineNumbers <;>
    by_cases hb : wouldOverflowB c (s.y + c.lineHeight) <;>
      simp only [hn, hb, if_true, if_false, breakPage, setupPageVisuals]
  · exact ⟨_, rfl, by intro d hd; rw [List.mem_singleton] at hd; subst hd; rfl⟩
  · exact ⟨_, rfl, by intro d hd; rw [List.mem_singleton] at hd; subst hd; rfl⟩
  · exact ⟨[], by simp, by simp⟩
  · exact ⟨[], by simp, by simp⟩

lemma tokenTextConcat_append (a b : List Draw) :
    tokenTextConcat (a ++ b) = tokenTextConcat a ++ tokenTextConcat b := by
  simp [tokenTextConcat]

lemma tokenTextConcat_of_wrapIndicators (t : List Draw)
    (h : ∀ d ∈ t, d.kind = DrawKind.wrapIndicator) : tokenTextConcat t = [] := by
  induction t with
  | nil => rfl
  | cons d t ih =>
      have hd := h d (List.mem_cons_self d t)
      have ht : ∀ e ∈ t, e.kind = DrawKind.wrapIndicator :=
        fun e he => h e (List.mem_cons_of_mem d he)
      rw [show d :: t = [d] ++ t from rfl, tokenTextConcat_append, ih ht]
      simp [tokenTextConcat, segText, hd]

lemma tokenDrawCount_append (a b : List Draw) :
    tokenDrawCount (a ++ b) = tokenDrawCount a + tokenDrawCount b := by
  simp [tokenDrawCount, List.countP_append]

lemma tokenDrawCount_of_wrapIndicators (t : List Draw)
    (h : ∀ d ∈ t, d.kind = DrawKind.wrapIndicator) : tokenDrawCount t = 0 := by
  unfold tokenDrawCount
  rw [List.countP_eq_zero]
  intro d hd
  simp [h d hd]

lemma wrapSegments_spec (c : RenderCtx) (wf : List Char → ℚ) :
    ∀ (n : Nat) (remaining : List Char) (s : RState), remaining.length ≤ n →
      ∃ t, (wrapSegments c wf s remaining).draws = s.draws ++ t ∧
        tokenTextConcat t = remaining ∧
        tokenDrawCount t ≤ remaining.length ∧
        ∀ d ∈ t, d.kind = DrawKind.wrapIndicator ∨
          (d.kind = DrawKind.tokenText ∧ d.text ≠ []) := by
  intro n
  induction n with
  | zero =>
      intro remaining s hle
      have hnil : remaining = [] := List.eq_nil_of_length_eq_zero (Nat.le_zero.mp hle)
      subst hnil
      rw [wrapSegments]
      exact ⟨[], by simp, rfl, by simp [tokenDrawCount], by simp⟩
  | succ n ih =>
      intro remaining s hle
      by_cases hrem : remaining = []
      · subst hrem
        rw [wrapSegments]
        exact ⟨[], by simp, rfl, by simp [tokenDrawCount], by simp⟩
      · rw [wrapSegments, dif_neg hrem]
        set scanned := fitScan wf (c.codeStartX + c.codeWidth - s.x) remaining with hsc
        have hfits : 1 ≤ forcedFitsChars scanned := one_le_forcedFitsChars scanned
        have hlen : 0 < remaining.length := List.length_pos.mpr hrem
        set fits := forcedFitsChars scanned with hf
        set headDraw : Draw :=
          { kind := DrawKind.tokenText, text := remaining.take fits,
            x := s.x, y := s.y, alignRight := false } with hD
        have hheadtext : headDraw.text ≠ [] := by
          rw [hD]
          simp only [ne_eq, List.take_eq_nil_iff]
          push_neg
          exact ⟨by omega, hrem⟩
        by_cases hrest : remaining.drop fits = []
        · rw [if_pos hrest]
          refine ⟨[headDraw], rfl, ?_, ?_, ?_⟩
          · have : remaining.take fits = remaining := by
              apply List.take_of_length_le
              have := List.drop_eq_nil_iff.mp hrest
              omega
            simp [tokenTextConcat, segText, hD, this]
          · simpa [tokenDrawCount, hD] using hlen
          · intro d hd
            rw [List.mem_singleton] at hd
            subst hd
            exact Or.inr ⟨rfl, hheadtext⟩
        · rw [if_neg hrest]
          set s1 : RState :=
            { s with draws := s.draws ++ [headDraw],
                     x := s.x + forcedSegWidth wf remaining scanned } with hs1
          obtain ⟨tm, htm, hkm⟩ := moveToNextWrapLine_spec c s1
          have hlt : (remaining.drop fits).length ≤ n := by
            rw [List.length_drop]
            omega
          obtain ⟨tr, htr, hcat, hcount, hkind⟩ :=
            ih (remaining.drop fits) (moveToNextWrapLine c s1) hlt
          refine ⟨headDraw :: (tm ++ tr), ?_, ?_, ?_, ?_⟩
          · rw [htr, htm, hs1]
            simp
          · rw [show headDraw :: (tm ++ tr) = [headDraw] ++ tm ++ tr from by simp,
              tokenTextConcat_append, tokenTextConcat_append,
              tokenTextConcat_of_wrapIndicators tm hkm, hcat]
            simp [tokenTextConcat, segText, hD, List.take_append_drop]
          · rw [show headDraw :: (tm ++ tr) = [headDraw] ++ tm ++ tr from by simp,
              tokenDrawCount_append, tokenDrawCount_append,
              tokenDrawCount_of_wrapIndicators tm hkm]
            have h1 : tokenDrawCount [headDraw] = 1 := by simp [tokenDrawCount, hD]
            rw [h1, List.length_drop] at *
            omega
          · intro d hd
            rcases List.mem_cons.mp hd with h | h
            · subst h
              exact Or.inr ⟨rfl, hheadtext⟩
            · rcases List.mem_append.mp h with h | h
              · exact Or.inl (hkm d h)
              · exact hkind d h

lemma renderToken_spec (c : RenderCtx) (w : Measure) (b : Bool) (s : RState)
    (token : HighlightedToken) :
    ∃ t, (renderToken c w b s token).draws = s.draws ++ t ∧
      tokenTextConcat t = token.text := by
  unfold renderToken
  by_cases hfit :
      s.x + w token.fontStyle token.text ≤ c.codeStartX + c.codeWidth
  · rw [if_pos hfit]
    exact ⟨_, rfl, by simp [tokenTextConcat, segText]⟩
  · rw [if_neg hfit]
    by_cases hb : b = true
    · rw [if_pos hb]
      obtain ⟨t, ht, hcat, _, _⟩ :=
        wrapSegments_spec c (w token.fontStyle) token.text.length token.text s
          (le_refl _)
      exact ⟨t, ht, hcat⟩
    · rw [if_neg hb]
      obtain ⟨tm, htm, hkm⟩ := moveToNextWrapLine_spec c s
      obtain ⟨t, ht, hcat, _, _⟩ :=
        wrapSegments_spec c (w token.fontStyle) token.text.length token.text
          (moveToNextWrapLine c s) (le_refl _)
      refine ⟨tm ++ t, ?_, ?_⟩
      · rw [ht, htm, List.append_assoc]
      · rw [tokenTextConcat_append, tokenTextConcat_of_wrapIndicators tm hkm, hcat]
        simp

lemma renderTokens_spec (c : RenderCtx) (w : Measure) :
    ∀ (tokens : List HighlightedToken) (b : Bool) (s : RState),
      ∃ t, (renderTokens c w b s tokens).draws = s.draws ++ t ∧
        tokenTextConcat t = tokens.flatMap (fun tk => tk.text) := by
  intro tokens
  induction tokens with
  | nil => intro b s; exact ⟨[], by simp [renderTokens], by simp [tokenTextConcat]⟩
  | cons tk tokens ih =>
      intro b s
      obtain ⟨t1, ht1, hcat1⟩ := renderToken_spec c w b s tk
      obtain ⟨t2, ht2, hcat2⟩ := ih false (renderToken c w b s tk)
      refine ⟨t1 ++ t2, ?_, ?_⟩
      · rw [show renderTokens c w b s (tk :: tokens) =
            renderTokens c w false (renderToken c w b s tk) tokens from rfl,
          ht2, ht1, List.append_assoc]
      · rw [tokenTextConcat_append, hcat1, hcat2]
        simp

/-- C3: for every sequence of input tokens of one source line, the
concatenation in drawing order of all token text the token-wrapping loop
of renderCodeFile draws (whole tokens that fit, plus character-split
sub-segments of tokens that wrap) equals the concatenation of the input
token texts: no character is dropped, duplicated or reordered, for any
metrics, any geometry (including zero-width boundaries), single very-long
tokens and empty lines alike. -/
theorem C3_wrap_preserves_text (c : RenderCtx) (w : Measure) (s : RState)
    (isFirstTokenOfLine : Bool) (tokens : List HighlightedToken) :
    tokenTextConcat (renderTokens c w isFirstTokenOfLine s tokens).draws =
      tokenTextConcat s.draws ++ tokens.flatMap (fun tk => tk.text) := by
  obtain ⟨t, ht, hcat⟩ := renderTokens_spec c w tokens isFirstTokenOfLine s
  rw [ht, tokenTextConcat_append, hcat]

/-- C8: the character-by-character wrapping loop terminates for every
token and every metrics function (zero character widths and zero or
negative available width included): each iteration draws one nonempty
segment, so the loop adds at most one tokenText draw per character of the
token, and every tokenText draw it emits is nonempty. -/
theorem C8_char_wrap_bounded (c : RenderCtx) (wf : List Char → ℚ) (s : RState)
    (remaining : List Char)
    (hs : ∀ d ∈ s.draws, d.kind = DrawKind.tokenText → d.text ≠ []) :
    tokenDrawCount (wrapSegments c wf s remaining).draws ≤
      tokenDrawCount s.draws + remaining.length ∧
    ∀ d ∈ (wrapSegments c wf s remaining).draws,
      d.kind = DrawKind.tokenText → d.text ≠ [] := by
  obtain ⟨t, ht, _, hcount, hkind⟩ :=
    wrapSegments_spec c wf remaining.length remaining s (le_refl _)
  constructor
  · rw [ht, tokenDrawCount_append]
    omega
  · intro d hd
    rw [ht] at hd
    rcases List.mem_append.mp hd with h | h
    · exact hs d h
    · intro hk
      rcases hkind d h with h1 | h1
      · rw [h1] at hk
        exact absurd hk (by simp)
      · exact h1.2

/-- Witness for C8: the two-character token of the demo wraps inside the
demo context starting from an empty trace. -/
theorem C8_char_wrap_bounded_witness :
    (∀ d ∈ wrapDemoState.draws, d.kind = DrawKind.tokenText → d.text ≠ []) ∧
    (tokenDrawCount (wrapSegments wrapDemoCtx (fun _ => 0) wrapDemoState
        ['a', 'b']).draws ≤
      tokenDrawCount wrapDemoState.draws + (['a', 'b'] : List Char).length ∧
    ∀ d ∈ (wrapSegments wrapDemoCtx (fun _ => 0) wrapDemoState ['a', 'b']).draws,
      d.kind = DrawKind.tokenText → d.text ≠ []) :=
  ⟨by simp [wrapDemoState], C8_char_wrap_bounded wrapDemoCtx _ wrapDemoState _
    (by simp [wrapDemoState])⟩

lemma lineNumberGlyph_eq (n d : Nat) :
    lineNumberGlyph n d =
      List.replicate (d - (toString n).length) ' ' ++ (toString n).toList := rfl

/-- C9 amended: when line numbers are enabled, renderCodeFile draws each
line number right-aligned in the gutter and padded with spaces (not
zeros) to the digit width of the file's maximum line number: the first
draw of every source line is the glyph
`String(lineNumber).padStart(maxLineNumDigits, ' ')` with `align: 'right'`. -/
theorem C9_line_number_space_padded (c : RenderCtx) (w : Measure) (s : RState)
    (line : HighlightedLine) (hn : c.showLineNumbers = true) :
    ∃ y rest,
      (renderLine c w s line).draws =
        s.draws ++
          ({ kind := DrawKind.lineNumber,
             text := List.replicate
                 (c.maxLineNumDigits - (toString line.lineNumber).length) ' ' ++
               (toString line.lineNumber).toList,
             x := c.startX + codeBlockPadding / 2,
             y := y,
             alignRight := true } : Draw) :: rest := by
  have hs0 : (if wouldOverflowB c s.y then breakPage c s else s).draws = s.draws := by
    split <;> rfl
  obtain ⟨t, ht, _⟩ := renderTokens_spec c w line.tokens true
    { (if wouldOverflowB c s.y then breakPage c s else s) with
      draws := (if wouldOverflowB c s.y then breakPage c s else s).draws ++
        [{ kind := DrawKind.lineNumber,
           text := lineNumberGlyph line.lineNumber c.maxLineNumDigits,
           x := c.startX + codeBlockPadding / 2,
           y := (if wouldOverflowB c s.y then breakPage c s else s).y,
           alignRight := true }],
      x := c.codeStartX }
  refine ⟨(if wouldOverflowB c s.y then breakPage c s else s).y, t, ?_⟩
  have hfinal :
      (renderTokens c w true
        { (if wouldOverflowB c s.y then breakPage c s else s) with
          draws := (if wouldOverflowB c s.y then breakPage c s else s).draws ++
            [{ kind := DrawKind.lineNumber,
               text := lineNumberGlyph line.lineNumber c.maxLineNumDigits,
               x := c.startX + codeBlockPadding / 2,
               y := (if wouldOverflowB c s.y then breakPage c s else s).y,
               alignRight := true }],
          x := c.codeStartX } line.tokens).draws =
      s.draws ++
        ({ kind := DrawKind.lineNumber,
           text := lineNumberGlyph line.lineNumber c.maxLineNumDigits,
           x := c.startX + codeBlockPadding / 2,
           y := (if wouldOverflowB c s.y then breakPage c s else s).y,
           alignRight := true } : Draw) :: t := by
    rw [ht]
    show (if wouldOverflowB c s.y then breakPage c s else s).draws ++ _ ++ t = _
    rw [hs0]
    simp
  show (renderLine c w s line).draws = _
  unfold renderLine
  simp only []
  rw [if_pos hn]
  rw [lineNumberGlyph_eq] at hfinal
  exact hfinal

/-- Witness for C9 amended: line 7 in the gutter context of digit width 3
is drawn as the glyph with two leading spaces, right-aligned. -/
theorem C9_line_number_space_padded_witness :
    gutterDemoCtx.showLineNumbers = true ∧
    ∃ y rest,
      (renderLine gutterDemoCtx zeroMeasure wrapDemoState gutterDemoLine).draws =
        wrapDemoState.draws ++
          ({ kind := DrawKind.lineNumber,
             text := List.replicate
                 (gutterDemoCtx.maxLineNumDigits -
                   (toString gutterDemoLine.lineNumber).length) ' ' ++
               (toString gutterDemoLine.lineNumber).toList,
             x := gutterDemoCtx.startX + codeBlockPadding / 2,
             y := y,
             alignRight := true } : Draw) :: rest :=
  ⟨rfl, C9_line_number_space_padded gutterDemoCtx zeroMeasure wrapDemoState
    gutterDemoLine rfl⟩

/-! Safety lemmas for claim C6: nothing is drawn below the page-break
boundary, provided one line fits on a fresh page. -/

lemma contentSafe_append (c : RenderCtx) (a b : List Draw) :
    contentSafe c (a ++ b) ↔ contentSafe c a ∧ contentSafe c b := by
  unfold contentSafe
  constructor
  · intro h
    exact ⟨fun d hd => h d (List.mem_append_left b hd),
      fun d hd => h d (List.mem_append_right a hd)⟩
  · rintro ⟨ha, hb⟩ d hd
    rcases List.mem_append.mp hd with h | h
    · exact ha d h
    · exact hb d h

lemma moveToNextWrapLine_y (c : RenderCtx) (s : RState) :
    (moveToNextWrapLine c s).y =
      if wouldOverflowB c (s.y + c.lineHeight)
      then c.startY + codeBlockPadding / 2
      else s.y + c.lineHeight := by
  unfold moveToNextWrapLine breakPage setupPageVisuals
  by_cases hb : wouldOverflowB c (s.y + c.lineHeight) <;>
    by_cases hn : c.showLineNumbers <;> simp [hb, hn]

lemma moveToNextWrapLine_draws_eq (c : RenderCtx) (s : RState) :
    (moveToNextWrapLine c s).draws =
      s.draws ++
        (if c.showLineNumbers then
          [{ kind := DrawKind.wrapIndicator, text := ['\u21aa'],
             x := c.startX + codeBlockPadding / 2,
             y := if wouldOverflowB c (s.y + c.lineHeight)
                  then c.startY + codeBlockPadding / 2
                  else s.y + c.lineHeight,
             alignRight := true }]
        else []) := by
  unfold moveToNextWrapLine breakPage setupPageVisuals
  by_cases hb : wouldOverflowB c (s.y + c.lineHeight) <;>
    by_cases hn : c.showLineNumbers <;> simp [hb, hn]

lemma moveToNextWrapLine_safe (c : RenderCtx) (s : RState)
    (hTop : c.startY + codeBlockPadding / 2 + c.lineHeight ≤ c.pageBottom)
    (hdraws : contentSafe c s.draws) :
    contentSafe c (moveToNextWrapLine c s).draws ∧
      (moveToNextWrapLine c s).y + c.lineHeight ≤ c.pageBottom := by
  have hy : (moveToNextWrapLine c s).y + c.lineHeight ≤ c.pageBottom := by
    rw [moveToNextWrapLine_y]
    by_cases hb : wouldOverflowB c (s.y + c.lineHeight)
    · rw [if_pos hb]
      exact hTop
    · rw [if_neg hb]
      simp only [wouldOverflowB, decide_eq_true_eq] at hb
      push_neg at hb
      exact hb
  refine ⟨?_, hy⟩
  rw [moveToNextWrapLine_draws_eq, contentSafe_append]
  refine ⟨hdraws, ?_⟩
  by_cases hn : c.showLineNumbers
  · rw [if_pos hn]
    intro d hd
    rw [List.mem_singleton] at hd
    subst hd
    rw [moveToNextWrapLine_y] at hy
    exact hy
  · rw [if_neg hn]
    intro d hd
    exact absurd hd (List.not_mem_nil d)

lemma wrapSegments_safe (c : RenderCtx) (wf : List Char → ℚ)
    (hTop : c.startY + codeBlockPadding / 2 + c.lineHeight ≤ c.pageBottom) :
    ∀ (n : Nat) (remaining : List Char) (s : RState), remaining.length ≤ n →
      s.y + c.lineHeight ≤ c.pageBottom → contentSafe c s.draws →
      contentSafe c (wrapSegments c wf s remaining).draws ∧
        (wrapSegments c wf s remaining).y + c.lineHeight ≤ c.pageBottom := by
  intro n
  induction n with
  | zero =>
      intro remaining s hle hy hdraws
      have hnil : remaining = [] := List.eq_nil_of_length_eq_zero (Nat.le_zero.mp hle)
      subst hnil
      rw [wrapSegments]
      exact ⟨hdraws, hy⟩
  | succ n ih =>
      intro remaining s hle hy hdraws
      by_cases hrem : remaining = []
      · subst hrem
        rw [wrapSegments]
        exact ⟨hdraws, hy⟩
      · rw [wrapSegments, dif_neg hrem]
        have hs1safe : contentSafe c (s.draws ++
            [{ kind := DrawKind.tokenText,
               text := remaining.take (forcedFitsChars
                 (fitScan wf (c.codeStartX + c.codeWidth - s.x) remaining)),
               x := s.x, y := s.y, alignRight := false }]) := by
          rw [contentSafe_append]
          refine ⟨hdraws, ?_⟩
          intro d hd
          rw [List.mem_singleton] at hd
          subst hd
          exact hy
        by_cases hrest : remaining.drop (forcedFitsChars
            (fitScan wf (c.codeStartX + c.codeWidth - s.x) remaining)) = []
        · rw [if_pos hrest]
          exact ⟨hs1safe, hy⟩
        · rw [if_neg hrest]
          have hfits := one_le_forcedFitsChars
            (fitScan wf (c.codeStartX + c.codeWidth - s.x) remaining)
          have hlen : 0 < remaining.length := List.length_pos.mpr hrem
          obtain ⟨hmsafe, hmy⟩ := moveToNextWrapLine_safe c
            { s with
              draws := s.draws ++
                [{ kind := DrawKind.tokenText,
                   text := remaining.take (forcedFitsChars
                     (fitScan wf (c.codeStartX + c.codeWidth - s.x) remaining)),
                   x := s.x, y := s.y, alignRight := false }],
              x := s.x + forcedSegWidth wf remaining
                (fitScan wf (c.codeStartX + c.codeWidth - s.x) remaining) }
            hTop hs1safe
          apply ih
          · rw [List.length_drop]
            omega
          · exact hmy
          · exact hmsafe

lemma renderToken_safe (c : RenderCtx) (w : Measure) (b : Bool) (s : RState)
    (token : HighlightedToken)
    (hTop : c.startY + codeBlockPadding / 2 + c.lineHeight ≤ c.pageBottom)
    (hy : s.y + c.lineHeight ≤ c.pageBottom) (hdraws : contentSafe c s.draws) :
    contentSafe c (renderToken c w b s token).draws ∧
      (renderToken c w b s token).y + c.lineHeight ≤ c.pageBottom := by
  unfold renderToken
  by_cases hfit : s.x + w token.fontStyle token.text ≤ c.codeStartX + c.codeWidth
  · rw [if_pos hfit]
    refine ⟨?_, hy⟩
    rw [contentSafe_append]
    refine ⟨hdraws, ?_⟩
    intro d hd
    rw [List.mem_singleton] at hd
    subst hd
    exact hy
  · rw [if_neg hfit]
    by_cases hb : b = true
    · rw [if_pos hb]
      exact wrapSegments_safe c (w token.fontStyle) hTop token.text.length
        token.text s (le_refl _) hy hdraws
    · rw [if_neg hb]
      obtain ⟨hmsafe, hmy⟩ := moveToNextWrapLine_safe c s hTop hdraws
      exact wrapSegments_safe c (w token.fontStyle) hTop token.text.length
        token.text (moveToNextWrapLine c s) (le_refl _) hmy hmsafe

lemma renderTokens_safe (c : RenderCtx) (w : Measure)
    (hTop : c.startY + codeBlockPadding / 2 + c.lineHeight ≤ c.pageBottom) :
    ∀ (tokens : List HighlightedToken) (b : Bool) (s : RState),
      s.y + c.lineHeight ≤ c.pageBottom → contentSafe c s.draws →
      contentSafe c (renderTokens c w b s tokens).draws ∧
        (renderTokens c w b s tokens).y + c.lineHeight ≤ c.pageBottom := by
  intro tokens
  induction tokens with
  | nil => intro b s hy hdraws; exact ⟨hdraws, hy⟩
  | cons tk tokens ih =>
      intro b s hy hdraws
      obtain ⟨h1, h2⟩ := renderToken_safe c w b s tk hTop hy hdraws
      exact ih false (renderToken c w b s tk) h2 h1

lemma renderLine_safe (c : RenderCtx) (w : Measure) (s : RState)
    (line : HighlightedLine)
    (hTop : c.startY + codeBlockPadding / 2 + c.lineHeight ≤ c.pageBottom)
    (hdraws : contentSafe c s.draws) :
    contentSafe c (renderLine c w s line).draws := by
  unfold renderLine
  simp only []
  have hy0 : (if wouldOverflowB c s.y then breakPage c s else s).y +
      c.lineHeight ≤ c.pageBottom := by
    by_cases hb : wouldOverflowB c s.y
    · rw [if_pos hb]
      exact hTop
    · rw [if_neg hb]
      simp only [wouldOverflowB, decide_eq_true_eq] at hb
      push_neg at hb
      exact hb
  have hd0 : contentSafe c (if wouldOverflowB c s.y then breakPage c s else s).draws := by
    split <;> exact hdraws
  by_cases hn : c.showLineNumbers
  · rw [if_pos hn]
    have hd1 : contentSafe c
        ((if wouldOverflowB c s.y then breakPage c s else s).draws ++
          [{ kind := DrawKind.lineNumber,
             text := lineNumberGlyph line.lineNumber c.maxLineNumDigits,
             x := c.startX + codeBlockPadding / 2,
             y := (if wouldOverflowB c s.y then breakPage c s else s).y,
             alignRight := true }]) := by
      rw [contentSafe_append]
      refine ⟨hd0, ?_⟩
      intro d hd
      rw [List.mem_singleton] at hd
      subst hd
      exact hy0
    exact (renderTokens_safe c w hTop line.tokens true
      { (if wouldOverflowB c s.y then breakPage c s else s) with
        draws := (if wouldOverflowB c s.y then breakPage c s else s).draws ++
          [{ kind := DrawKind.lineNumber,
             text := lineNumberGlyph line.lineNumber c.maxLineNumDigits,
             x := c.startX + codeBlockPadding / 2,
             y := (if wouldOverflowB c s.y then breakPage c s else s).y,
             alignRight := true }],
        x := c.codeStartX } hy0 hd1).1
  · rw [if_neg hn]
    exact (renderTokens_safe c w hTop line.tokens true
      { (if wouldOverflowB c s.y then breakPage c s else s) with
        x := c.codeStartX } hy0 hd0).1

lemma foldl_renderLine_safe (c : RenderCtx) (w : Measure)
    (hTop : c.startY + codeBlockPadding / 2 + c.lineHeight ≤ c.pageBottom) :
    ∀ (lines : List HighlightedLine) (s : RState), contentSafe c s.draws →
      contentSafe c (lines.foldl (renderLine c w) s).draws := by
  intro lines
  induction lines with
  | nil => exact fun s h => h
  | cons l ls ih =>
      intro s h
      exact ih (renderLine c w s l) (renderLine_safe c w s l hTop h)

/-- C6: the page-break predicate of renderCodeFile is true exactly when
`currentY + lineHeight > pageBottom` (with pageBottom the bottom of the
usable content area, `endY - CODE_BLOCK_PADDING`), and rendering a whole
file never draws a line number, wrap indicator or token text at a
vertical position whose row extends below pageBottom; this covers the
check before each source line and the check inside moveToNextWrapLine at
every wrapped continuation. The hypothesis states that one code row fits
on a fresh page. -/
theorem C6_never_draws_below_pageBottom (c : RenderCtx) (w : Measure)
    (file : HighlightedFile) (initialPageNumber : Nat)
    (hTop : c.startY + codeBlockPadding / 2 + c.lineHeight ≤ c.pageBottom) :
    (∀ yPos : ℚ, wouldOverflowB c yPos = true ↔
      yPos + c.lineHeight > c.endY - codeBlockPadding) ∧
    contentSafe c (renderCodeFile c w file initialPageNumber).draws := by
  constructor
  · intro yPos
    simp [wouldOverflowB, RenderCtx.pageBottom]
  · unfold renderCodeFile
    apply foldl_renderLine_safe c w hTop
    intro d hd
    exact absurd hd (List.not_mem_nil d)

/-! Concrete evaluation of one wrapped source line, for claim C2. -/

lemma fitScan_ab : fitScan (sixPerChar FontStyle.normal) 10 ['a', 'b'] = (1, 6) := by
  unfold fitScan
  rw [fitScanAux]
  rw [if_pos (by norm_num)]
  rw [if_pos (show sixPerChar FontStyle.normal (List.take 1 ['a', 'b']) ≤ 10 by
    norm_num [sixPerChar])]
  rw [fitScanAux]
  rw [if_pos (by norm_num)]
  rw [if_neg (show ¬ sixPerChar FontStyle.normal (List.take 2 ['a', 'b']) ≤ 10 by
    norm_num [sixPerChar])]
  norm_num [sixPerChar]

lemma fitScan_b : fitScan (sixPerChar FontStyle.normal) 10 ['b'] = (1, 6) := by
  unfold fitScan
  rw [fitScanAux]
  rw [if_pos (by norm_num)]
  rw [if_pos (show sixPerChar FontStyle.normal (List.take 1 ['b']) ≤ 10 by
    norm_num [sixPerChar])]
  rw [fitScanAux]
  rw [if_neg (by norm_num)]
  norm_num [sixPerChar]

lemma wrapB :
    wrapSegments
      { lineHeight := 14, startY := 50, endY := 750, startX := 50, codeStartX := 100,
        codeWidth := 10, wrapIndentWidth := 0, showLineNumbers := false,
        maxLineNumDigits := 1 }
      (sixPerChar FontStyle.normal)
      { y := 69, x := 100, page := 3,
        draws := [{ kind := DrawKind.tokenText, text := ['a'], x := 100, y := 55,
                    alignRight := false }],
        footers := [3], wrapMoves := 1 } ['b'] =
      { y := 69, x := 106, page := 3,
        draws := [{ kind := DrawKind.tokenText, text := ['a'], x := 100, y := 55,
                    alignRight := false },
                  { kind := DrawKind.tokenText, text := ['b'], x := 100, y := 69,
                    alignRight := false }],
        footers := [3], wrapMoves := 1 } := by
  rw [wrapSegments]
  rw [dif_neg (show ¬ (['b'] : List Char) = [] by simp)]
  norm_num
  rw [fitScan_b]
  norm_num [forcedFitsChars, forcedSegWidth, sixPerChar]

lemma wrapAB :
    wrapSegments
      { lineHeight := 14, startY := 50, endY := 750, startX := 50, codeStartX := 100,
        codeWidth := 10, wrapIndentWidth := 0, showLineNumbers := false,
        maxLineNumDigits := 1 }
      (sixPerChar FontStyle.normal)
      { y := 55, x := 100, page := 3, draws := [], footers := [3], wrapMoves := 0 }
      ['a', 'b'] =
      { y := 69, x := 106, page := 3,
        draws := [{ kind := DrawKind.tokenText, text := ['a'], x := 100, y := 55,
                    alignRight := false },
                  { kind := DrawKind.tokenText, text := ['b'], x := 100, y := 69,
                    alignRight := false }],
        footers := [3], wrapMoves := 1 } := by
  rw [wrapSegments]
  rw [dif_neg (show ¬ (['a', 'b'] : List Char) = [] by simp)]
  norm_num
  rw [fitScan_ab]
  norm_num [forcedFitsChars, forcedSegWidth, sixPerChar, moveToNextWrapLine,
    wouldOverflowB, RenderCtx.pageBottom, codeBlockPadding, breakPage,
    setupPageVisuals]
  exact wrapB

lemma narrow_eval :
    renderLine narrowCtx sixPerChar wrapDemoState abLine =
      { y := 69, x := 106, page := 3,
        draws := [{ kind := DrawKind.tokenText, text := ['a'], x := 100, y := 55,
                    alignRight := false },
                  { kind := DrawKind.tokenText, text := ['b'], x := 100, y := 69,
                    alignRight := false }],
        footers := [3], wrapMoves := 1 } := by
  unfold renderLine renderTokens renderToken abLine
  norm_num [wrapDemoState, wouldOverflowB, RenderCtx.pageBottom, codeBlockPadding,
    sixPerChar, narrowCtx]
  rw [wrapAB]
  simp [renderTokens]

/-- C2 (the code contradicts the claim): for the two-character token in
the narrow context, the source line consumes two visual lines (one
moveToNextWrapLine call, and the trace shows the second segment drawn one
lineHeight below the first), yet line 474 of src/src/pdf-renderer.ts
(`doc.y = currentLineY + lineHeight`) leaves the cursor exactly one
lineHeight below the start of the line, not two: the next source line
overlaps the wrapped row. The sibling implementation in
src/unnamed/part_010 (line 617 with its moveToNextWrapLine advancing
currentLineY) advances one lineHeight per visual line, as the spec
states. -/
theorem C2_cursor_advances_one_line_only :
    (renderLine narrowCtx sixPerChar wrapDemoState abLine).wrapMoves =
      wrapDemoState.wrapMoves + 1 ∧
    (renderLine narrowCtx sixPerChar wrapDemoState abLine).y =
      wrapDemoState.y + narrowCtx.lineHeight ∧
    (renderLine narrowCtx sixPerChar wrapDemoState abLine).y ≠
      wrapDemoState.y + 2 * narrowCtx.lineHeight := by
  rw [narrow_eval]
  refine ⟨by simp [wrapDemoState], ?_, ?_⟩
  · show (69 : ℚ) = wrapDemoState.y + narrowCtx.lineHeight
    norm_num [wrapDemoState, narrowCtx]
  · show (69 : ℚ) ≠ wrapDemoState.y + 2 * narrowCtx.lineHeight
    norm_num [wrapDemoState, narrowCtx]

/-- Witness for C6: in the demo context one code row fits on a fresh page
and the file with the wrapping line is rendered entirely above the
page-break boundary. -/
theorem C6_never_draws_below_pageBottom_witness :
    (narrowCtx.startY + codeBlockPadding / 2 + narrowCtx.lineHeight ≤
      narrowCtx.pageBottom) ∧
    ((∀ yPos : ℚ, wouldOverflowB narrowCtx yPos = true ↔
        yPos + narrowCtx.lineHeight > narrowCtx.endY - codeBlockPadding) ∧
      contentSafe narrowCtx
        (renderCodeFile narrowCtx sixPerChar ⟨"w.ts", [abLine]⟩ 3).draws) :=
  ⟨by norm_num [narrowCtx, codeBlockPadding, RenderCtx.pageBottom],
   C6_never_draws_below_pageBottom narrowCtx sixPerChar ⟨"w.ts", [abLine]⟩ 3
    (by norm_num [narrowCtx, codeBlockPadding, RenderCtx.pageBottom])⟩

/-! The TOC estimator recurrence, for claim C7. -/

lemma tocPageEstimates_getElem (lpp : ℤ) :
    ∀ (files : List HighlightedFile) (startPage : ℤ) (i : Nat),
      (tocPageEstimates lpp startPage files)[i]? =
        (files[i]?).map (fun f => (f.relativePath,
          startPage + ((files.take i).map
            (fun g => estimatedPagesForFile lpp g.highlightedLines.length)).sum)) := by
  intro files
  induction files with
  | nil => intro startPage i; simp [tocPageEstimates]
  | cons f fs ih =>
      intro startPage i
      cases i with
      | zero => simp [tocPageEstimates]
      | succ j =>
          simp only [tocPageEstimates, List.getElem?_cons_succ, List.take_succ_cons,
            List.map_cons, List.sum_cons]
          rw [ih]
          cases h : fs[j]? <;> simp [add_assoc]

/-- C7: for every ordered file list and starting counter, the TOC
estimation loop assigns each file the running counter as its start page
and advances the counter by
`pagesNeeded = max(1, ceil(lineCount / linesPerPage))`, where
`linesPerPage = floor(contentHeight / lineHeight)` is computed with the
same `fontSize * 1.4` line-height formula the file renderer uses; the
i-th estimate therefore equals the offset plus the pagesNeeded of all
earlier files. (The positivity hypothesis marks the domain on which the
rational-ceiling model is faithful to the JavaScript division.) -/
theorem C7_estimator_running_counter (o : PdfOptions)
    (files : List HighlightedFile) (offset : ℤ) (i : Nat)
    (hlpp : 0 < codeLinesPerPage o) :
    codeLinesPerPage o = ⌊getContentHeight o / rendererLineHeight o⌋ ∧
    (addTableOfContentsEstimates o files offset)[i]? =
      ((tocFileOrder files)[i]?).map (fun f => (f.relativePath,
        offset + (((tocFileOrder files).take i).map
          (fun g => max 1 ⌈(g.highlightedLines.length : ℚ) /
            (codeLinesPerPage o : ℚ)⌉)).sum)) := by
  refine ⟨rfl, ?_⟩
  unfold addTableOfContentsEstimates
  rw [tocPageEstimates_getElem]
  rfl

/-- Witness for C7: in the scenario options (50 estimated lines per page)
the second file of the walk order gets estimate 2 + max(1, ceil(200/50)) = 6. -/
theorem C7_estimator_running_counter_witness :
    0 < codeLinesPerPage scenarioOptions ∧
    (codeLinesPerPage scenarioOptions =
      ⌊getContentHeight scenarioOptions / rendererLineHeight scenarioOptions⌋ ∧
    (addTableOfContentsEstimates scenarioOptions [fileA, fileB] 2)[1]? =
      ((tocFileOrder [fileA, fileB])[1]?).map (fun f => (f.relativePath,
        2 + (((tocFileOrder [fileA, fileB]).take 1).map
          (fun g => max 1 ⌈(g.highlightedLines.length : ℚ) /
            (codeLinesPerPage scenarioOptions : ℚ)⌉)).sum))) :=
  ⟨by norm_num [codeLinesPerPage, getContentHeight, scenarioOptions,
      defaultLineHeightMultiplier],
   C7_estimator_running_counter scenarioOptions [fileA, fileB] 2 1
    (by norm_num [codeLinesPerPage, getContentHeight, scenarioOptions,
      defaultLineHeightMultiplier])⟩

/-! Machinery for claim C1: Scenario C evaluated against the embedding. -/

set_option maxRecDepth 10000

lemma renderLine_single_fit (c : RenderCtx) (w : Measure) (s : RState)
    (num : Nat) (tok : HighlightedToken)
    (hov : wouldOverflowB c s.y = false) (hn : c.showLineNumbers = false)
    (hfit : c.codeStartX + w tok.fontStyle tok.text ≤ c.codeStartX + c.codeWidth) :
    renderLine c w s { lineNumber := num, tokens := [tok] } =
      { s with
        x := c.codeStartX + w tok.fontStyle tok.text,
        draws := s.draws ++
          [{ kind := DrawKind.tokenText, text := tok.text, x := c.codeStartX,
             y := s.y, alignRight := false }],
        y := s.y + c.lineHeight } := by
  simp only [renderLine, renderTokens, renderToken, hov, hn, Bool.false_eq_true,
    if_false]
  rw [if_pos hfit]

lemma renderLine_single_fit_break (c : RenderCtx) (w : Measure) (s : RState)
    (num : Nat) (tok : HighlightedToken)
    (hov : wouldOverflowB c s.y = true) (hn : c.showLineNumbers = false)
    (hfit : c.codeStartX + w tok.fontStyle tok.text ≤ c.codeStartX + c.codeWidth) :
    renderLine c w s { lineNumber := num, tokens := [tok] } =
      { s with
        page := s.page + 1,
        footers := s.footers ++ [s.page + 1],
        x := c.codeStartX + w tok.fontStyle tok.text,
        draws := s.draws ++
          [{ kind := DrawKind.tokenText, text := tok.text, x := c.codeStartX,
             y := c.startY + codeBlockPadding / 2, alignRight := false }],
        y := c.startY + codeBlockPadding / 2 + c.lineHeight } := by
  simp only [renderLine, renderTokens, renderToken, breakPage, setupPageVisuals,
    hov, hn, Bool.false_eq_true, if_false, if_true]
  rw [if_pos hfit]


lemma scenario_overflow_true {k : Nat} (hk : 48 ≤ k) :
    wouldOverflowB scenarioCtx (55 + 14 * (k : ℚ)) = true := by
  simp only [wouldOverflowB, scenarioCtx, RenderCtx.pageBottom, codeBlockPadding,
    decide_eq_true_eq]
  have hq : (48 : ℚ) ≤ (k : ℚ) := by exact_mod_cast hk
  linarith

lemma scenario_overflow_false {k : Nat} (hk : k < 48) :
    wouldOverflowB scenarioCtx (55 + 14 * (k : ℚ)) = false := by
  simp only [wouldOverflowB, scenarioCtx, RenderCtx.pageBottom, codeBlockPadding,
    decide_eq_false_iff_not]
  have hq : (k : ℚ) ≤ 47 := by exact_mod_cast Nat.lt_succ_iff.mp hk
  push_neg
  linarith

lemma scenario_fold :
    ∀ (lines : List HighlightedLine), (∀ l ∈ lines, ∃ i, l = plainLine i) →
      ∀ (s : RState) (k : Nat), s.y = 55 + 14 * (k : ℚ) →
        (lines.foldl (renderLine scenarioCtx zeroMeasure) s).y =
          55 + 14 * ((pagIter lines.length (k, s.page, s.footers)).1 : ℚ) ∧
        (lines.foldl (renderLine scenarioCtx zeroMeasure) s).page =
          (pagIter lines.length (k, s.page, s.footers)).2.1 ∧
        (lines.foldl (renderLine scenarioCtx zeroMeasure) s).footers =
          (pagIter lines.length (k, s.page, s.footers)).2.2 := by
  intro lines
  induction lines with
  | nil => intro _ s k hy; exact ⟨by simpa [pagIter] using hy, rfl, rfl⟩
  | cons l ls ih =>
      intro hpl s k hy
      obtain ⟨i, rfl⟩ := hpl l (List.mem_cons_self l ls)
      have hfit : scenarioCtx.codeStartX +
          zeroMeasure ({ text := ['x'] } : HighlightedToken).fontStyle
            ({ text := ['x'] } : HighlightedToken).text ≤
          scenarioCtx.codeStartX + scenarioCtx.codeWidth := by
        norm_num [scenarioCtx, zeroMeasure]
      have hnext := fun l hl => hpl l (List.mem_cons_of_mem _ hl)
      have hpl_eq : plainLine i =
          { lineNumber := i + 1, tokens := [{ text := ['x'] }] } := rfl
      by_cases hk : 48 ≤ k
      · have hov : wouldOverflowB scenarioCtx s.y = true := by
          rw [hy]; exact scenario_overflow_true hk
        have hstep := renderLine_single_fit_break scenarioCtx zeroMeasure s
          (i + 1) { text := ['x'] } hov rfl hfit
        have hy1 : (renderLine scenarioCtx zeroMeasure s (plainLine i)).y =
            55 + 14 * ((1 : Nat) : ℚ) := by
          rw [hpl_eq, hstep]
          norm_num [scenarioCtx, codeBlockPadding]
        have hp1 : (renderLine scenarioCtx zeroMeasure s (plainLine i)).page =
            s.page + 1 := by
          rw [hpl_eq, hstep]
        have hf1 : (renderLine scenarioCtx zeroMeasure s (plainLine i)).footers =
            s.footers ++ [s.page + 1] := by
          rw [hpl_eq, hstep]
        obtain ⟨h1, h2, h3⟩ :=
          ih hnext (renderLine scenarioCtx zeroMeasure s (plainLine i)) 1 hy1
        rw [hp1, hf1] at h1 h2 h3
        simp only [List.foldl_cons, List.length_cons]
        rw [pagIter]
        rw [show pagStep (k, s.page, s.footers) =
            (1, s.page + 1, s.footers ++ [s.page + 1]) from by simp [pagStep, hk]]
        exact ⟨h1, h2, h3⟩
      · have hov : wouldOverflowB scenarioCtx s.y = false := by
          rw [hy]; exact scenario_overflow_false (Nat.lt_of_not_le hk)
        have hstep := renderLine_single_fit scenarioCtx zeroMeasure s
          (i + 1) { text := ['x'] } hov rfl hfit
        have hy1 : (renderLine scenarioCtx zeroMeasure s (plainLine i)).y =
            55 + 14 * ((k + 1 : Nat) : ℚ) := by
          rw [hpl_eq, hstep]
          show s.y + scenarioCtx.lineHeight = _
          rw [hy]
          push_cast
          norm_num [scenarioCtx]
          ring
        have hp1 : (renderLine scenarioCtx zeroMeasure s (plainLine i)).page =
            s.page := by
          rw [hpl_eq, hstep]
        have hf1 : (renderLine scenarioCtx zeroMeasure s (plainLine i)).footers =
            s.footers := by
          rw [hpl_eq, hstep]
        obtain ⟨h1, h2, h3⟩ :=
          ih hnext (renderLine scenarioCtx zeroMeasure s (plainLine i)) (k + 1) hy1
        rw [hp1, hf1] at h1 h2 h3
        simp only [List.foldl_cons, List.length_cons]
        rw [pagIter]
        rw [show pagStep (k, s.page, s.footers) = (k + 1, s.page, s.footers)
          from by simp [pagStep, hk]]
        exact ⟨h1, h2, h3⟩


set_option maxRecDepth 10000

lemma plainLines_length (n : Nat) : (plainLines n).length = n := by
  simp [plainLines]

lemma maxDigits_fileA : maxLineNumDigitsOf fileA = 3 := by
  unfold maxLineNumDigitsOf
  rw [show fileA.highlightedLines = plainLines 200 from rfl, plainLines_length]
  rfl

lemma maxDigits_fileB : maxLineNumDigitsOf fileB = 3 := by
  unfold maxLineNumDigitsOf
  rw [show fileB.highlightedLines = plainLines 200 from rfl, plainLines_length]
  rfl

lemma scenarioCtx_fileA : mkRenderCtx scenarioOptions zeroMeasure fileA = scenarioCtx := by
  have hd := maxDigits_fileA
  simp only [mkRenderCtx, scenarioOptions, zeroMeasure, lineNumberWidthOf,
    getContentWidth, rendererLineHeight, defaultLineHeightMultiplier,
    codeBlockPadding, hd, scenarioCtx]
  norm_num

lemma scenarioCtx_fileB : mkRenderCtx scenarioOptions zeroMeasure fileB = scenarioCtx := by
  have hd := maxDigits_fileB
  simp only [mkRenderCtx, scenarioOptions, zeroMeasure, lineNumberWidthOf,
    getContentWidth, rendererLineHeight, defaultLineHeightMultiplier,
    codeBlockPadding, hd, scenarioCtx]
  norm_num

lemma scenario_renderCodeFile (file : HighlightedFile)
    (hfl : file.highlightedLines = plainLines 200) (start kk pp : Nat)
    (ff : List Nat) (hpag : pagIter 200 (0, start, [start]) = (kk, pp, ff)) :
    (renderCodeFile scenarioCtx zeroMeasure file start).page = pp ∧
    (renderCodeFile scenarioCtx zeroMeasure file start).footers = ff := by
  unfold renderCodeFile
  rw [hfl]
  have hall : ∀ l ∈ plainLines 200, ∃ i, l = plainLine i := by
    intro l hl
    obtain ⟨i, _, rfl⟩ := List.mem_map.mp hl
    exact ⟨i, rfl⟩
  have hy0 : (setupPageVisuals scenarioCtx
      { y := 0, x := 0, page := start, draws := [], footers := [],
        wrapMoves := 0 }).y = 55 + 14 * ((0 : Nat) : ℚ) := by
    norm_num [setupPageVisuals, scenarioCtx, codeBlockPadding]
  obtain ⟨h1, h2, h3⟩ := scenario_fold (plainLines 200) hall _ 0 hy0
  rw [plainLines_length] at h2 h3
  have hsp : (setupPageVisuals scenarioCtx
      { y := 0, x := 0, page := start, draws := [], footers := [],
        wrapMoves := 0 }).page = start := rfl
  have hsf : (setupPageVisuals scenarioCtx
      { y := 0, x := 0, page := start, draws := [], footers := [],
        wrapMoves := 0 }).footers = [start] := rfl
  rw [hsp, hsf, hpag] at h2 h3
  exact ⟨h2, h3⟩


set_option maxRecDepth 10000

lemma pagIterA : pagIter 200 (0, 3, [3]) = (8, 7, [3, 4, 5, 6, 7]) := by decide

lemma pagIterB : pagIter 200 (0, 8, [8]) = (8, 12, [8, 9, 10, 11, 12]) := by decide

lemma scenario_order : rendererFileOrder [fileA, fileB] = [fileA, fileB] := by
  have hle : relPathLe fileA fileB = true := by decide
  simp [rendererFileOrder, jsSort, jsOrderedInsert, hle]

lemma scenario_toc_order : tocFileOrder [fileA, fileB] = [fileA, fileB] := by
  have hka : dirKey fileA.relativePath = "/" := by decide
  have hkb : dirKey fileB.relativePath = "/" := by decide
  have hle : relPathLe fileA fileB = true := by decide
  rw [show tocFileOrder [fileA, fileB] =
    (sortedDirKeys [fileA, fileB]).flatMap
      (fun d => jsSort relPathLe (filesForDir [fileA, fileB] d)) from rfl]
  rw [show sortedDirKeys [fileA, fileB] = ["/"] from by
    unfold sortedDirKeys
    rw [show ([fileA, fileB].map (fun f => dirKey f.relativePath)) = ["/", "/"] from by
      rw [List.map_cons, List.map_cons, List.map_nil, hka, hkb]]
    rfl]
  simp only [List.flatMap_cons, List.flatMap_nil, List.append_nil]
  rw [show filesForDir [fileA, fileB] "/" = [fileA, fileB] from by
    unfold filesForDir
    rw [List.filter_cons, List.filter_cons]
    simp [hka, hkb]]
  simp [jsSort, jsOrderedInsert, hle]


set_option maxRecDepth 10000

lemma scenario_estimates :
    addTableOfContentsEstimates scenarioOptions [fileA, fileB] 2 =
      [("a.txt", 2), ("b.txt", 6)] := by
  have hlpp : codeLinesPerPage scenarioOptions = 50 := by
    norm_num [codeLinesPerPage, getContentHeight, scenarioOptions,
      defaultLineHeightMultiplier]
  have hlenA : fileA.highlightedLines.length = 200 := by
    rw [show fileA.highlightedLines = plainLines 200 from rfl, plainLines_length]
  have hlenB : fileB.highlightedLines.length = 200 := by
    rw [show fileB.highlightedLines = plainLines 200 from rfl, plainLines_length]
  have hpages : estimatedPagesForFile 50 200 = 4 := by
    norm_num [estimatedPagesForFile]
  unfold addTableOfContentsEstimates
  rw [scenario_toc_order, hlpp]
  simp only [tocPageEstimates]
  rw [hlenA, hpages]
  norm_num
  constructor <;> rfl

lemma scenario_model_eval :
    generatePdfModel scenarioOptions zeroMeasure [fileA, fileB] 1 =
      ((12, [("a.txt", [3, 4, 5, 6, 7]), ("b.txt", [8, 9, 10, 11, 12])]),
       [("a.txt", 2), ("b.txt", 6)]) := by
  obtain ⟨hpA, hfA⟩ :=
    scenario_renderCodeFile fileA rfl 3 8 7 [3, 4, 5, 6, 7] pagIterA
  obtain ⟨hpB, hfB⟩ :=
    scenario_renderCodeFile fileB rfl 8 8 12 [8, 9, 10, 11, 12] pagIterB
  simp only [generatePdfModel]
  norm_num
  rw [scenario_order, scenario_estimates]
  simp only [List.foldl_cons, List.foldl_nil]
  unfold generatePdfFileStep
  rw [scenarioCtx_fileA, scenarioCtx_fileB]
  norm_num
  rw [hpA, hfA]
  norm_num
  rw [hpB, hfB]
  norm_num
  exact ⟨rfl, rfl⟩

/-- C1 counterexample: in the Scenario C setting (two 200-line files,
content height 700 and font size 10, so the estimator capacity is
floor(700/14) = 50 lines per page; TOC enabled and fitting one physical
page) the TOC Estimator reports file A starting at logical page 2 and
file B at 6, but the footers actually rendered for file A are 3..7: the
renderer starts at physical-page-count-after-TOC + 1 = 3 and fits only 48
lines inside the padded content area, so the footers do not show the
estimated numbers (file A's footers 3..7 differ already in their first
page from the claimed 2..5). -/
theorem C1_counterexample_estimates_vs_footers :
    (generatePdfModel scenarioOptions zeroMeasure [fileA, fileB] 1).2 =
      [("a.txt", 2), ("b.txt", 6)] ∧
    (generatePdfModel scenarioOptions zeroMeasure [fileA, fileB] 1).1.2 =
      [("a.txt", [3, 4, 5, 6, 7]), ("b.txt", [8, 9, 10, 11, 12])] ∧
    ¬ ([3, 4, 5, 6, 7] : List Nat) = [2, 3, 4, 5] := by
  rw [scenario_model_eval]
  exact ⟨rfl, rfl, by decide⟩

/-- C1 amended: the TOC Estimator (with the pre-TOC offset 2 and the
50-line page estimate) reports file A starting at logical page 2 and
file B at 6; the rendering pass, whose starting logical page is the
physical page count after the TOC plus one and which fits 48 lines per
page inside the padded content area, renders footers 3..7 for file A and
8..12 for file B, ending on logical page 12. -/
theorem C1_amended_footer_numbers :
    (generatePdfModel scenarioOptions zeroMeasure [fileA, fileB] 1).2 =
      [("a.txt", 2), ("b.txt", 6)] ∧
    (generatePdfModel scenarioOptions zeroMeasure [fileA, fileB] 1).1.2 =
      [("a.txt", [3, 4, 5, 6, 7]), ("b.txt", [8, 9, 10, 11, 12])] ∧
    (generatePdfModel scenarioOptions zeroMeasure [fileA, fileB] 1).1.1 = 12 := by
  rw [scenario_model_eval]
  exact ⟨rfl, rfl, rfl⟩

end Xprinto
